import Mathlib

/-!
Shallow embedding of the chip_i2c driver (src/chip_i2c.c) and proofs about it.

The driver binds an MCP23017 I/O expander at bus address 0x21, configures its
two direction registers at probe time, and exposes a write-only led attribute
and a read-only switch attribute, serializing every SMBus transaction behind a
per-client mutex.

The embedding models:
- the SMBus transport as a register file plus a fault oracle deciding which
  transactions fail and with what errno;
- each driver function as an explicit state transformer that also appends the
  transport transactions it performs to a log;
- the mutex discipline of chip_read_value / chip_write_value as a small
  interleaving transition system whose reachable states are proved to keep
  transport transactions mutually exclusive.
-/

namespace ChipI2C

/-! ### Errno constants (linux asm-generic/errno-base.h) -/

def ENOMEM : Int := 12
def ENODEV : Int := 19
def EINVAL : Int := 22
def ERANGE : Int := 34

/-! ### Register map, from the `#define`s in src/chip_i2c.c -/

def REG_CHIP_DIR_PORTA : Nat := 0x00
def REG_CHIP_DIR_PORTB : Nat := 0x01
def REG_CHIP_PORTA_LIN : Nat := 0x12
def REG_CHIP_PORTB_LIN : Nat := 0x13
def REG_CHIP_PORTA_LOUT : Nat := 0x14
def REG_CHIP_PORTB_LOUT : Nat := 0x15

/-! ### Transport model -/

/-- One SMBus transaction as recorded by a transport log: the register
addressed, the byte carried (for writes) and the transaction's return code
(0 or the read byte on success, a negative errno on failure). -/
inductive I2CEvent where
  | readByte (reg : Nat) (result : Int)
  | writeByte (reg : Nat) (value : Nat) (result : Int)
deriving DecidableEq, Repr

/-- Fault oracle for the SMBus transport: `none` means the transaction
succeeds, `some e` means it fails and `i2c_smbus_*_byte_data` returns the
(negative) errno `e`. -/
structure SmbusFaults where
  writeFault : Nat → Nat → Option Int
  readFault : Nat → Option Int

/-- `struct chip_data` of src/chip_i2c.c (the mutex is modelled separately, in
the lock transition system below, since the sequential semantics never blocks). -/
structure ChipData where
  led_last_updated : Nat
  switch_last_read : Nat
  kind : Nat
deriving DecidableEq, Repr

/-- The observable state of one bound client: the chip's register file, the
client data, whether each of the two sysfs attributes is registered, and the
log of transport transactions issued so far. -/
structure SysState where
  regs : Nat → Nat
  data : ChipData
  attr_led : Bool
  attr_switch : Bool
  log : List I2CEvent

/-- `i2c_smbus_read_byte_data`: on success returns the addressed register's
byte, on failure the oracle's negative errno; either way the transaction is
logged. -/
def i2c_smbus_read_byte_data (f : SmbusFaults) (s : SysState) (reg : Nat) :
    Int × SysState :=
  match f.readFault reg with
  | some e => (e, { s with log := s.log ++ [I2CEvent.readByte reg e] })
  | none =>
      ((s.regs reg : Int),
       { s with log := s.log ++ [I2CEvent.readByte reg (s.regs reg)] })

/-- `i2c_smbus_write_byte_data`: on success stores the byte in the addressed
register and returns 0, on failure returns the oracle's negative errno and
leaves the register file unchanged; either way the transaction is logged. -/
def i2c_smbus_write_byte_data (f : SmbusFaults) (s : SysState) (reg : Nat)
    (value : Nat) : Int × SysState :=
  match f.writeFault reg value with
  | some e => (e, { s with log := s.log ++ [I2CEvent.writeByte reg value e] })
  | none =>
      (0, { s with
              regs := fun r => if r = reg then value else s.regs r,
              log := s.log ++ [I2CEvent.writeByte reg value 0] })

/-- Return code of a modelled SMBus write: the oracle's errno if it faults,
else 0. -/
def smbusWriteRet (f : SmbusFaults) (reg value : Nat) : Int :=
  (f.writeFault reg value).getD 0

/-- `chip_read_value` (src/chip_i2c.c:80): one SMBus byte read under the
client mutex; the mutex itself is modelled by the lock transition system. -/
def chip_read_value (f : SmbusFaults) (s : SysState) (reg : Nat) :
    Int × SysState :=
  i2c_smbus_read_byte_data f s reg

/-- `chip_write_value` (src/chip_i2c.c:97): one SMBus byte write under the
client mutex. The C parameter is `u16 value` and `i2c_smbus_write_byte_data`
takes a `u8`, so the byte put on the bus is `value % 256`. -/
def chip_write_value (f : SmbusFaults) (s : SysState) (reg : Nat)
    (value : Nat) : Int × SysState :=
  i2c_smbus_write_byte_data f s reg (value % 256)

/-! ### kstrtoint (linux lib/kstrtox.c), the parser used by set_chip_led -/

/-- Consume the maximal leading run of decimal digits, accumulating their
value; returns the value together with the unconsumed suffix. -/
def digitsVal : List Char → Nat → Nat × List Char
  | [], acc => (acc, [])
  | c :: cs, acc =>
      if c.isDigit then digitsVal cs (acc * 10 + (c.toNat - 48))
      else (acc, c :: cs)

/-- `_kstrtoull` with base 10: requires at least one digit, flags 64-bit
overflow as `-ERANGE` (checked before trailing junk, as in the kernel), then
allows one optional trailing newline and nothing else. -/
def kstrtoull_body (cs : List Char) : Except Int Nat :=
  match cs with
  | [] => Except.error (-EINVAL)
  | c :: _ =>
      if c.isDigit then
        let p := digitsVal cs 0
        if p.1 ≥ 2 ^ 64 then Except.error (-ERANGE)
        else
          match p.2 with
          | [] => Except.ok p.1
          | ['\n'] => Except.ok p.1
          | _ => Except.error (-EINVAL)
      else Except.error (-EINVAL)

/-- `kstrtoint(s, 10, &res)`: an optional sign (`kstrtoull` additionally skips
one leading `'+'` in the non-negative branch), a digit run, an optional
trailing newline; the result must fit a 32-bit signed int, else `-ERANGE`. -/
def kstrtoint (s : String) : Except Int Int :=
  match s.data with
  | '-' :: rest =>
      match kstrtoull_body rest with
      | Except.error e => Except.error e
      | Except.ok v =>
          if (v : Int) > 2 ^ 31 then Except.error (-ERANGE)
          else Except.ok (-(v : Int))
  | cs =>
      let cs2 := match cs with
        | '+' :: rest => rest
        | _ => cs
      match kstrtoull_body cs2 with
      | Except.error e => Except.error e
      | Except.ok v =>
          if (v : Int) ≥ 2 ^ 31 then Except.error (-ERANGE)
          else Except.ok (v : Int)

/-! ### The sysfs attribute handlers -/

/-- `set_chip_led` (src/chip_i2c.c:122): parse the buffer with
`kstrtoint(buf, 10, &value)`; on parse failure return the parse errno without
touching hardware; on success write `(u16) value` to `REG_CHIP_PORTA_LOUT`
through `chip_write_value`, discard that call's return value, and return
`count`. -/
def set_chip_led (f : SmbusFaults) (s : SysState) (buf : String)
    (count : Nat) : Int × SysState :=
  match kstrtoint buf with
  | Except.error e => (e, s)
  | Except.ok value =>
      let r := chip_write_value f s REG_CHIP_PORTA_LOUT ((value % 65536).toNat)
      ((count : Int), r.2)

/-- `get_chip_switch` (src/chip_i2c.c:145): read `REG_CHIP_PORTB_LIN` through
`chip_read_value` and render whatever integer came back — error code included —
as `sprintf(buf, "%d\n", value)` does, returning the rendered text and
`sprintf`'s return value (its length). -/
def get_chip_switch (f : SmbusFaults) (s : SysState) :
    (String × Int) × SysState :=
  let r := chip_read_value f s REG_CHIP_PORTB_LIN
  let text := toString r.1 ++ "\n"
  ((text, (text.length : Int)), r.2)

/-! ### Probe / remove / detect -/

/-- `chip_init_client` (src/chip_i2c.c:178): write 0x00 to the PORTA direction
register, then 0xFF to the PORTB direction register. The function is `void`
and discards both return values. -/
def chip_init_client (f : SmbusFaults) (s : SysState) : SysState :=
  let r1 := chip_write_value f s REG_CHIP_DIR_PORTA 0x00
  let r2 := chip_write_value f r1.2 REG_CHIP_DIR_PORTB 0xFF
  r2.2

/-- `chip_i2c_probe` (src/chip_i2c.c:199): allocate zeroed client data (fail
with `-ENOMEM` if the allocation fails), set `kind` from the id table's
driver_data, run `chip_init_client`, then unconditionally register both sysfs
attributes and return 0. -/
def chip_i2c_probe (f : SmbusFaults) (s : SysState) (driver_data : Nat)
    (allocOk : Bool) : Int × SysState :=
  if allocOk = false then (-ENOMEM, s)
  else
    let s1 := { s with
                  data := { led_last_updated := 0, switch_last_read := 0,
                            kind := driver_data } }
    let s2 := chip_init_client f s1
    (0, { s2 with attr_led := true, attr_switch := true })

/-- `chip_i2c_remove` (src/chip_i2c.c:238): unregister the two sysfs
attributes and return 0; no transport call, no register access. -/
def chip_i2c_remove (s : SysState) : Int × SysState :=
  (0, { s with attr_led := false, attr_switch := false })

/-- `chip_i2c_detect` (src/chip_i2c.c:256): `-ENODEV` if the adapter lacks
`I2C_FUNC_SMBUS_BYTE_DATA`; otherwise the fixed name "chip_i2c" when the
candidate address is 0x21 and `-ENODEV` for every other address. -/
def chip_i2c_detect (haveByteData : Bool) (address : Nat) :
    Except Int String :=
  if haveByteData = false then Except.error (-ENODEV)
  else if address = 0x21 then Except.ok "chip_i2c"
  else Except.error (-ENODEV)

/-! ### The mutex discipline of chip_read_value / chip_write_value

Both functions have the same shape: `mutex_lock(&data->update_lock)`, exactly
one SMBus transaction, `mutex_unlock(&data->update_lock)`. We model `n`
concurrent callers of either function on one shared client as an interleaving
transition system: each thread walks through the phases of that body, and the
`mutex_lock` step only fires when no thread owns the lock. The SMBus
transaction occupies the interval between the `transEnter` and `transExit`
steps, so two transport transactions overlap in time exactly when two threads
are simultaneously in phase `inTrans`. -/

/-- Where one caller of chip_read_value / chip_write_value stands in the body:
before `mutex_lock`, holding the lock before the SMBus call, inside the SMBus
call, holding the lock after the SMBus call, or past `mutex_unlock`. -/
inductive Phase where
  | start
  | locked
  | inTrans
  | postTrans
  | done
deriving DecidableEq, Repr

/-- Shared state of `n` concurrent callers on one client: the mutex owner (the
`update_lock` of `struct chip_data`) and each thread's phase. -/
structure LockState (n : Nat) where
  owner : Option (Fin n)
  phase : Fin n → Phase

/-- All threads about to enter chip_read_value / chip_write_value, lock free. -/
def lockInit (n : Nat) : LockState n :=
  { owner := none, phase := fun _ => Phase.start }

/-- One interleaving step: a thread acquires the free mutex, enters its single
SMBus transaction, finishes it, or releases the mutex. -/
inductive LockStep (n : Nat) : LockState n → LockState n → Prop where
  | lock (s : LockState n) (t : Fin n) :
      s.phase t = Phase.start → s.owner = none →
      LockStep n s ⟨some t, Function.update s.phase t Phase.locked⟩
  | transEnter (s : LockState n) (t : Fin n) :
      s.phase t = Phase.locked →
      LockStep n s ⟨s.owner, Function.update s.phase t Phase.inTrans⟩
  | transExit (s : LockState n) (t : Fin n) :
      s.phase t = Phase.inTrans →
      LockStep n s ⟨s.owner, Function.update s.phase t Phase.postTrans⟩
  | unlock (s : LockState n) (t : Fin n) :
      s.phase t = Phase.postTrans →
      LockStep n s ⟨none, Function.update s.phase t Phase.done⟩

/-- The phases during which a thread holds `update_lock`. -/
def lockHeldPhase : Phase → Bool
  | Phase.locked => true
  | Phase.inTrans => true
  | Phase.postTrans => true
  | _ => false

/-- Lock invariant: any thread in a lock-holding phase is the mutex owner. -/
def LockInv {n : Nat} (s : LockState n) : Prop :=
  ∀ t, lockHeldPhase (s.phase t) = true → s.owner = some t

/-! ### Concrete oracles and states used by witnesses and counterexamples -/

/-- Fault-free transport. -/
def noFaults : SmbusFaults :=
  { writeFault := fun _ _ => none, readFault := fun _ => none }

/-- Transport failing every write with `-EIO` (-5); reads succeed. -/
def failAllWrites : SmbusFaults :=
  { writeFault := fun _ _ => some (-5), readFault := fun _ => none }

/-- Transport failing the output-latch write and every read with `-EIO`. -/
def failOutAndReads : SmbusFaults :=
  { writeFault := fun reg _ =>
      if reg = REG_CHIP_PORTA_LOUT then some (-5) else none
    readFault := fun _ => some (-5) }

/-- A freshly zeroed system state. -/
def sysInit : SysState :=
  { regs := fun _ => 0
    data := { led_last_updated := 0, switch_last_read := 0, kind := 0 }
    attr_led := false
    attr_switch := false
    log := [] }

/-- A bound state with nonzero bookkeeping timestamps and 7 on PORTB. -/
def sysBound : SysState :=
  { regs := fun r => if r = REG_CHIP_PORTB_LIN then 7 else 0
    data := { led_last_updated := 5, switch_last_read := 9, kind := 0 }
    attr_led := true
    attr_switch := true
    log := [] }

/-- One of a single caller's states: the mutex just acquired. -/
def lockW1 : LockState 1 :=
  ⟨some 0, Function.update (lockInit 1).phase 0 Phase.locked⟩

/-- The same caller now inside its SMBus transaction. -/
def lockW2 : LockState 1 :=
  ⟨lockW1.owner, Function.update lockW1.phase 0 Phase.inTrans⟩

theorem lockInv_init (n : Nat) : LockInv (lockInit n) := by
  intro t h
  simp [lockInit, lockHeldPhase] at h

theorem lockInv_step {n : Nat} {s s2 : LockState n} (hinv : LockInv s)
    (hstep : LockStep n s s2) : LockInv s2 := by
  cases hstep with
  | lock t hph hown =>
      intro u hu
      by_cases hut : u = t
      · subst hut; rfl
      · exfalso
        rw [show (⟨some t, Function.update s.phase t Phase.locked⟩ :
              LockState n).phase u = s.phase u from
            Function.update_noteq hut _ _] at hu
        have := hinv u hu
        rw [hown] at this
        exact Option.noConfusion this
  | transEnter t hph =>
      have howner : s.owner = some t := hinv t (by rw [hph]; rfl)
      intro u hu
      by_cases hut : u = t
      · subst hut; exact howner
      · rw [show (⟨s.owner, Function.update s.phase t Phase.inTrans⟩ :
              LockState n).phase u = s.phase u from
            Function.update_noteq hut _ _] at hu
        exact hinv u hu
  | transExit t hph =>
      have howner : s.owner = some t := hinv t (by rw [hph]; rfl)
      intro u hu
      by_cases hut : u = t
      · subst hut; exact howner
      · rw [show (⟨s.owner, Function.update s.phase t Phase.postTrans⟩ :
              LockState n).phase u = s.phase u from
            Function.update_noteq hut _ _] at hu
        exact hinv u hu
  | unlock t hph =>
      have howner : s.owner = some t := hinv t (by rw [hph]; rfl)
      intro u hu
      exfalso
      by_cases hut : u = t
      · subst hut
        rw [show (⟨none, Function.update s.phase u Phase.done⟩ :
              LockState n).phase u = Phase.done from
            Function.update_same _ _ _] at hu
        simp [lockHeldPhase] at hu
      · rw [show (⟨none, Function.update s.phase t Phase.done⟩ :
              LockState n).phase u = s.phase u from
            Function.update_noteq hut _ _] at hu
        have := hinv u hu
        rw [howner] at this
        exact hut (Option.some.inj this).symm

theorem lockInv_reachable {n : Nat} {s : LockState n}
    (h : Relation.ReflTransGen (LockStep n) (lockInit n) s) : LockInv s := by
  induction h with
  | refl => exact lockInv_init n
  | tail _ hstep ih => exact lockInv_step ih hstep

/-! ### Helper lemmas about the register-access layer -/

theorem chip_write_value_log (f : SmbusFaults) (s : SysState)
    (reg value : Nat) :
    (chip_write_value f s reg value).2.log =
      s.log ++ [I2CEvent.writeByte reg (value % 256)
                  (smbusWriteRet f reg (value % 256))] := by
  unfold chip_write_value i2c_smbus_write_byte_data smbusWriteRet
  cases f.writeFault reg (value % 256) <;> simp

theorem chip_write_value_data (f : SmbusFaults) (s : SysState)
    (reg value : Nat) :
    (chip_write_value f s reg value).2.data = s.data := by
  unfold chip_write_value i2c_smbus_write_byte_data
  cases f.writeFault reg (value % 256) <;> simp

theorem chip_read_value_data (f : SmbusFaults) (s : SysState) (reg : Nat) :
    (chip_read_value f s reg).2.data = s.data := by
  unfold chip_read_value i2c_smbus_read_byte_data
  cases f.readFault reg <;> simp

/-! ### The claims -/

/-- C1: in every state reachable by concurrent callers of chip_read_value /
chip_write_value on one bound client, a thread inside its SMBus transaction
owns `update_lock` for that whole transaction, and no two threads are inside
their transactions at the same time — transport transactions on one client
never overlap. -/
theorem c1_transactions_mutually_exclusive (n : Nat) (s : LockState n)
    (h : Relation.ReflTransGen (LockStep n) (lockInit n) s) :
    (∀ t, s.phase t = Phase.inTrans → s.owner = some t) ∧
    (∀ t u, s.phase t = Phase.inTrans → s.phase u = Phase.inTrans → t = u) := by
  have hinv := lockInv_reachable h
  refine ⟨fun t ht => hinv t (by rw [ht]; rfl), fun t u ht hu => ?_⟩
  have h1 := hinv t (by rw [ht]; rfl)
  have h2 := hinv u (by rw [hu]; rfl)
  rw [h1] at h2
  exact Option.some.inj h2

/-- Witness for C1 at a concrete reachable state: a single caller that locked
and entered its SMBus transaction is the lock owner there. -/
theorem c1_transactions_mutually_exclusive_witness : lockW2.owner = some 0 := by
  have h1 : LockStep 1 (lockInit 1) lockW1 :=
    LockStep.lock (lockInit 1) 0 rfl rfl
  have h2 : LockStep 1 lockW1 lockW2 :=
    LockStep.transEnter lockW1 0 (by
      show Function.update (lockInit 1).phase 0 Phase.locked 0 = Phase.locked
      exact Function.update_same _ _ _)
  have hreach : Relation.ReflTransGen (LockStep 1) (lockInit 1) lockW2 :=
    Relation.ReflTransGen.tail (Relation.ReflTransGen.single h1) h2
  exact (c1_transactions_mutually_exclusive 1 lockW2 hreach).1 0 (by
    show Function.update lockW1.phase 0 Phase.inTrans 0 = Phase.inTrans
    exact Function.update_same _ _ _)

/-- C3: chip_init_client performs exactly two transport writes, first 0x00 to
the output-port direction register 0x00, then 0xFF to the input-port direction
register 0x01, in that order, whatever the transport answers. -/
theorem c3_init_writes_exactly_two (f : SmbusFaults) (s : SysState) :
    (chip_init_client f s).log =
      s.log ++ [I2CEvent.writeByte REG_CHIP_DIR_PORTA 0x00
                  (smbusWriteRet f REG_CHIP_DIR_PORTA 0x00),
                I2CEvent.writeByte REG_CHIP_DIR_PORTB 0xFF
                  (smbusWriteRet f REG_CHIP_DIR_PORTB 0xFF)] := by
  unfold chip_init_client
  rw [chip_write_value_log, chip_write_value_log]
  simp [REG_CHIP_DIR_PORTA, REG_CHIP_DIR_PORTB]

/-- C4: chip_i2c_detect answers the fixed name "chip_i2c" exactly for
candidate address 0x21 on a byte-data-capable adapter, and `-ENODEV` for every
other address as well as for every incapable adapter. -/
theorem c4_detect_only_0x21 (cap : Bool) (address : Nat) :
    chip_i2c_detect cap address =
      if cap = true ∧ address = 0x21 then Except.ok "chip_i2c"
      else Except.error (-ENODEV) := by
  cases cap <;> by_cases h : address = 0x21 <;> simp [chip_i2c_detect, h]

/-- C2 counterexample: with a transport failing both initialization writes
(both are logged with result -5), chip_i2c_probe still returns 0 and registers
both sysfs attributes — the bind completes despite the TransportError. -/
theorem c2_counterexample :
    (chip_i2c_probe failAllWrites sysInit 0 true).2.log =
      [I2CEvent.writeByte REG_CHIP_DIR_PORTA 0x00 (-5),
       I2CEvent.writeByte REG_CHIP_DIR_PORTB 0xFF (-5)] ∧
    (chip_i2c_probe failAllWrites sysInit 0 true).1 = 0 ∧
    (chip_i2c_probe failAllWrites sysInit 0 true).2.attr_led = true ∧
    (chip_i2c_probe failAllWrites sysInit 0 true).2.attr_switch = true :=
  ⟨rfl, rfl, rfl, rfl⟩

/-- C2 amended: the bind never aborts on an initialization-write failure —
chip_init_client discards both write results, and chip_i2c_probe (when
allocation succeeds) returns 0 and registers both sysfs attributes under every
transport fault oracle. -/
theorem c2_probe_ignores_init_errors (f : SmbusFaults) (s : SysState)
    (d : Nat) :
    (chip_i2c_probe f s d true).1 = 0 ∧
    (chip_i2c_probe f s d true).2.attr_led = true ∧
    (chip_i2c_probe f s d true).2.attr_switch = true :=
  ⟨rfl, rfl, rfl⟩

/-- C5 counterexample: with the output-latch write failing (logged with result
-5), set_chip_led still returns count (here 2) instead of the transport error;
and with the read failing with -5, get_chip_switch returns the rendered text
"-5\n" instead of propagating the error. -/
theorem c5_counterexample :
    (set_chip_led failOutAndReads sysInit "42" 2).1 = 2 ∧
    (set_chip_led failOutAndReads sysInit "42" 2).2.log =
      [I2CEvent.writeByte REG_CHIP_PORTA_LOUT 42 (-5)] ∧
    (get_chip_switch failOutAndReads sysInit).1.1 = "-5\n" :=
  ⟨rfl, rfl, rfl⟩

/-- C5 amended: transport failures are swallowed, not surfaced — whenever the
buffer parses, set_chip_led returns count regardless of the write's outcome,
and when the read fails with errno e, get_chip_switch returns the decimal
rendering of e with a trailing newline instead of propagating the error. -/
theorem c5_errors_not_propagated (f : SmbusFaults) (s : SysState)
    (buf : String) (count : Nat) (v e : Int)
    (hp : kstrtoint buf = Except.ok v)
    (hr : f.readFault REG_CHIP_PORTB_LIN = some e) :
    (set_chip_led f s buf count).1 = (count : Int) ∧
    (get_chip_switch f s).1.1 = toString e ++ "\n" := by
  constructor
  · unfold set_chip_led
    rw [hp]
  · unfold get_chip_switch chip_read_value i2c_smbus_read_byte_data
    rw [hr]

/-- Witness for C5 amended at concrete inputs. -/
theorem c5_errors_not_propagated_witness :
    (set_chip_led failOutAndReads sysBound "42" 2).1 = ((2 : Nat) : Int) ∧
    (get_chip_switch failOutAndReads sysBound).1.1 =
      toString (-5 : Int) ++ "\n" :=
  c5_errors_not_propagated failOutAndReads sysBound "42" 2 42 (-5) rfl rfl

/-- C6 counterexample: a successful set_chip_led (its write is logged with
result 0) leaves led_last_updated at its prior value 5, and a successful
get_chip_switch leaves switch_last_read at its prior value 9 — neither
timestamp is updated. -/
theorem c6_counterexample :
    (set_chip_led noFaults sysBound "42" 2).2.log =
      [I2CEvent.writeByte REG_CHIP_PORTA_LOUT 42 0] ∧
    (set_chip_led noFaults sysBound "42" 2).2.data.led_last_updated = 5 ∧
    (get_chip_switch noFaults sysBound).2.log =
      [I2CEvent.readByte REG_CHIP_PORTB_LIN 7] ∧
    (get_chip_switch noFaults sysBound).2.data.switch_last_read = 9 :=
  ⟨rfl, rfl, rfl, rfl⟩

/-- C6 amended: the bookkeeping fields led_last_updated and switch_last_read
are declared in chip_data but never written — no attribute operation and no
initialization write modifies the client data, on success or on failure. -/
theorem c6_timestamps_never_updated (f : SmbusFaults) (s : SysState)
    (buf : String) (count : Nat) :
    (set_chip_led f s buf count).2.data = s.data ∧
    (get_chip_switch f s).2.data = s.data ∧
    (chip_init_client f s).data = s.data := by
  refine ⟨?_, ?_, ?_⟩
  · unfold set_chip_led
    cases hk : kstrtoint buf with
    | error e => rfl
    | ok v =>
        exact chip_write_value_data f s REG_CHIP_PORTA_LOUT ((v % 65536).toNat)
  · exact chip_read_value_data f s REG_CHIP_PORTB_LIN
  · unfold chip_init_client
    rw [chip_write_value_data, chip_write_value_data]

/-- C7: when the buffer does not parse as a signed decimal integer (kstrtoint
fails with errno e), set_chip_led returns e to its caller and the whole state
is untouched — zero transport transactions, hardware unchanged. -/
theorem c7_parse_failure_no_transport (f : SmbusFaults) (s : SysState)
    (buf : String) (count : Nat) (e : Int)
    (h : kstrtoint buf = Except.error e) :
    set_chip_led f s buf count = (e, s) := by
  unfold set_chip_led
  rw [h]

/-- Witness for C7: "not-a-number" fails to parse with -EINVAL and the state
comes back unchanged. -/
theorem c7_parse_failure_no_transport_witness :
    set_chip_led noFaults sysInit "not-a-number" 12 = (-22, sysInit) :=
  c7_parse_failure_no_transport noFaults sysInit "not-a-number" 12 (-22) rfl

/-- C8: when the buffer parses to v, set_chip_led issues exactly one transport
write, to the output-port latch register 0x14, carrying v wrapped to 8 bits
(v mod 2^8). -/
theorem c8_set_led_writes_v_mod_256 (f : SmbusFaults) (s : SysState)
    (buf : String) (count : Nat) (v : Int)
    (h : kstrtoint buf = Except.ok v) :
    (set_chip_led f s buf count).2.log =
      s.log ++ [I2CEvent.writeByte REG_CHIP_PORTA_LOUT (v % 256).toNat
                  (smbusWriteRet f REG_CHIP_PORTA_LOUT (v % 256).toNat)] := by
  unfold set_chip_led
  rw [h]
  show (chip_write_value f s REG_CHIP_PORTA_LOUT ((v % 65536).toNat)).2.log = _
  rw [chip_write_value_log]
  have hmod : (v % 65536).toNat % 256 = (v % 256).toNat := by omega
  rw [hmod]

/-- Witness for C8: set_chip_led on "42" performs the single write of byte 42
to register 0x14. -/
theorem c8_set_led_writes_v_mod_256_witness :
    (set_chip_led noFaults sysInit "42" 2).2.log =
      sysInit.log ++
        [I2CEvent.writeByte REG_CHIP_PORTA_LOUT ((42 : Int) % 256).toNat
          (smbusWriteRet noFaults REG_CHIP_PORTA_LOUT ((42 : Int) % 256).toNat)] :=
  c8_set_led_writes_v_mod_256 noFaults sysInit "42" 2 42 rfl

/-- C9: when the transport read succeeds, get_chip_switch returns exactly the
canonical decimal rendering of the byte held by the input-port value register
0x13, followed by one newline. -/
theorem c9_get_switch_renders_decimal (f : SmbusFaults) (s : SysState)
    (h : f.readFault REG_CHIP_PORTB_LIN = none) :
    (get_chip_switch f s).1.1 =
      Nat.repr (s.regs REG_CHIP_PORTB_LIN) ++ "\n" := by
  unfold get_chip_switch chip_read_value i2c_smbus_read_byte_data
  rw [h]
  rfl

/-- Witness for C9: reading transport value 7 yields the text "7\n" exactly. -/
theorem c9_get_switch_renders_decimal_witness :
    (get_chip_switch noFaults sysBound).1.1 = "7\n" := by
  rw [c9_get_switch_renders_decimal noFaults sysBound rfl]
  rfl

/-- C10: chip_i2c_remove issues no transport transaction and leaves the
register file, the client data and the transaction log unchanged; it only
unregisters the two sysfs attributes and returns 0. -/
theorem c10_remove_touches_no_hardware (s : SysState) :
    chip_i2c_remove s =
      (0, { s with attr_led := false, attr_switch := false }) ∧
    (chip_i2c_remove s).2.log = s.log ∧
    (chip_i2c_remove s).2.regs = s.regs ∧
    (chip_i2c_remove s).2.data = s.data :=
  ⟨rfl, rfl, rfl, rfl⟩

end ChipI2C
